import Mathlib

/-!
# Verification of the ETH HMA trend-analysis core

A shallow embedding of the trend-interval detection and excursion-measurement
engine of the repository (files `src/analyzers/math_brain.py` and
`src/eth_hma_analysis/core/trend_analyzer.py`), together with theorems that
settle the specification's claims about it.

Machine floats are modelled by exact rationals (`ℚ`); a float `NaN` is
modelled by `Option.none`; pandas `Series` become Lean lists; the wall clock
read by `pd.Timestamp.now()` becomes an explicit input of the function that
reads it.  Sample standard deviations are carried in squared form (variances)
so that every definition stays inside `ℚ` and is executable.
-/

/-! ## Slope detection and turning points
Embedding of `TrendAnalyzer.calculate_hma_slope`
(`eth_hma_analysis/core/trend_analyzer.py`, lines 67-118).
The function receives a frame that already carries the HMA column
(`none` on the warm-up prefix) and derives, positionally:
`HMA_slope = hma.diff()`, `slope_sign = np.sign(HMA_slope)`,
`slope_change = slope_sign.diff().fillna(0)`, and the `turning_point`
column (`1` where `slope_change == 2`, `-1` where `slope_change == -2`,
`0` elsewhere), optionally zeroed where `|HMA_slope| < slope_threshold`
when the threshold is positive. -/

/-- `np.sign` on a defined (non-NaN) value. -/
def signQ (q : ℚ) : ℤ :=
  if 0 < q then 1 else if q < 0 then -1 else 0

/-- `df['HMA_slope'] = df[hma_col].diff()`: first element `NaN`, and `NaN`
wherever either operand is undefined. -/
def slopesList : List (Option ℚ) → List (Option ℚ)
  | [] => []
  | x :: rest =>
      none :: List.zipWith (fun prev cur =>
        match prev, cur with
        | some b, some a => some (a - b)
        | _, _ => none) (x :: rest) rest

/-- `df['slope_sign'] = np.sign(df['HMA_slope'])` (`NaN` propagates). -/
def signsList (hma : List (Option ℚ)) : List (Option ℤ) :=
  (slopesList hma).map (Option.map signQ)

/-- One entry of `slope_sign.diff().fillna(0)`: the difference of two
consecutive signs, `0` when either is `NaN`. -/
def changeAt (prev cur : Option ℤ) : ℤ :=
  match prev, cur with
  | some b, some a => a - b
  | _, _ => 0

/-- `df['slope_change'] = df['slope_sign'].diff().fillna(0)`. -/
def changesList : List (Option ℤ) → List ℤ
  | [] => []
  | x :: rest => 0 :: List.zipWith changeAt (x :: rest) rest

/-- Turning-point marker from one `slope_change` entry:
`+2 ↦ 1` (up-turn), `-2 ↦ -1` (down-turn), otherwise `0`. -/
def turnOfChange (c : ℤ) : ℤ :=
  if c = 2 then 1 else if c = -2 then -1 else 0

/-- The `turning_point` column before noise filtering. -/
def turningColRaw (hma : List (Option ℚ)) : List ℤ :=
  (changesList (signsList hma)).map turnOfChange

/-- The `turning_point` column of `calculate_hma_slope`: when
`slope_threshold > 0`, a marked point survives only if its slope is defined
and `|slope| >= slope_threshold` (a `NaN` slope compares as `False`). -/
def turningCol (hma : List (Option ℚ)) (slope_threshold : ℚ) : List ℤ :=
  if 0 < slope_threshold then
    List.zipWith (fun t s =>
      match s with
      | some sl => if t ≠ 0 ∧ slope_threshold ≤ |sl| then t else 0
      | none => 0) (turningColRaw hma) (slopesList hma)
  else turningColRaw hma

/-- `df[df['turning_point'] != 0]` with its positional indices: the ordered
sequence of turning points, as (index, direction) pairs. -/
def tpList (hma : List (Option ℚ)) (slope_threshold : ℚ) : List (ℕ × ℤ) :=
  ((turningCol hma slope_threshold).enum).filter (fun p => p.2 != 0)

/-- Strict direction alternation of a list of turning-point directions. -/
def alternatingZ : List ℤ → Bool
  | [] => true
  | [_] => true
  | a :: b :: rest => (a != b) && alternatingZ (b :: rest)

/-- Direction-alternation seeded with the direction `d` of the previous
turning point: each following direction is the negation of its predecessor. -/
def altFromZ (d : ℤ) : List ℤ → Bool
  | [] => true
  | a :: rest => (a == -d) && altFromZ a rest

/-- Recursive view of `slope_sign.diff()` carrying the previous sign. -/
def changesFrom (prev : Option ℤ) : List (Option ℤ) → List ℤ
  | [] => []
  | a :: rest => changeAt prev a :: changesFrom a rest

/-- Plain first differences of a sign sequence, seeded with `d`. -/
def diffsFrom (d : ℤ) : List ℤ → List ℤ
  | [] => []
  | a :: rest => (a - d) :: diffsFrom a rest

/-! ## Weighted and Hull moving averages
Embedding of `MathBrain.calculate_wma` and `MathBrain.calculate_hma`
(`analyzers/math_brain.py`, lines 26-82).  A pandas `Series` of floats with
`NaN` entries becomes a `List (Option ℚ)`; `pd.Series(index=data.index,
dtype=float)` (the all-`NaN` series over the same index) becomes
`data.map (fun _ => none)`. -/

/-- `np.average(x, weights=np.arange(1, n+1))` over a fully defined window
`x` of length `n`, oldest value first: sum-normalized linear weights. -/
def wmaWindow (window : List ℚ) : ℚ :=
  let n := window.length
  let weights := (List.range n).map (fun k => ((k + 1 : ℕ) : ℚ))
  (List.zipWith (fun w x => w * x) weights window).sum / weights.sum

/-- `some` the list of values when every entry is defined, else `none`
(a rolling window containing a `NaN` averages to `NaN`). -/
def allSome : List (Option ℚ) → Option (List ℚ)
  | [] => some []
  | none :: _ => none
  | some x :: rest => (allSome rest).map (fun l => x :: l)

/-- `MathBrain.calculate_wma`: all-`NaN` of the same length when the series
is shorter than the period, else the rolling weighted average, undefined on
the first `period - 1` positions and wherever the window touches a `NaN`. -/
def calculate_wma (data : List (Option ℚ)) (period : ℕ) : List (Option ℚ) :=
  if data.length < period then data.map (fun _ => none)
  else (List.range data.length).map (fun i =>
    if i + 1 < period then none
    else
      match allSome ((data.drop (i + 1 - period)).take period) with
      | some vs => some (wmaWindow vs)
      | none => none)

/-- `half_period = max(1, period // 2)` (`math_brain.py` line 69). -/
def halfPeriod (period : ℕ) : ℕ := max 1 (period / 2)

/-- `sqrt_period = max(1, int(np.sqrt(period)))` (`math_brain.py` line 79):
`int` truncates, so this is the floor of the square root. -/
def sqrtPeriodInt (period : ℕ) : ℕ := max 1 (Nat.sqrt period)

/-- `MathBrain.calculate_hma`: all-`NaN` of the same length when the series
is shorter than the period, else
`WMA(2 * WMA(data, half) - WMA(data, period), sqrt_period)` with `NaN`
propagating through the pointwise combination. -/
def calculate_hma (data : List (Option ℚ)) (period : ℕ) : List (Option ℚ) :=
  if data.length < period then data.map (fun _ => none)
  else
    let wma1 := calculate_wma data (halfPeriod period)
    let wma2 := calculate_wma data period
    let raw_hma := List.zipWith (fun a b =>
      match a, b with
      | some x, some y => some (2 * x - y)
      | _, _ => none) wma1 wma2
    calculate_wma raw_hma (sqrtPeriodInt period)

/-- Nearest integer to `sqrt period` (the square root of a non-square
integer is irrational, so no tie-breaking case arises). -/
def roundSqrt (period : ℕ) : ℕ :=
  let k := Nat.sqrt period
  if period ≤ k * k + k then k else k + 1

/-- Modelled from the spec: the spec's window derivation
`sqrt_n = max(1, round(sqrt(period)))` uses rounding to nearest where the
code truncates. -/
def sqrtPeriodRound (period : ℕ) : ℕ := max 1 (roundSqrt period)

/-- Modelled from the spec: `calculate_hma` as the spec words it, i.e. with
the final smoothing window `max(1, round(sqrt(period)))` instead of the
code's `max(1, int(np.sqrt(period)))`; otherwise identical. -/
def calculate_hma_roundSpec (data : List (Option ℚ)) (period : ℕ) : List (Option ℚ) :=
  if data.length < period then data.map (fun _ => none)
  else
    let wma1 := calculate_wma data (halfPeriod period)
    let wma2 := calculate_wma data period
    let raw_hma := List.zipWith (fun a b =>
      match a, b with
      | some x, some y => some (2 * x - y)
      | _, _ => none) wma1 wma2
    calculate_wma raw_hma (sqrtPeriodRound period)

/-! ## Price bars and ingestion validation
Embedding of `MathBrain.validate_data` (`analyzers/math_brain.py`,
lines 136-173).  A row of the OHLCV frame becomes a `Bar`; the frame's
`DatetimeIndex` becomes the `ts` field (seconds).  The struct has every
required column, so the missing-column branch cannot fire; all fields are
total rationals, so the null count is zero and the null branch (which only
warns and never rejects) is a no-op. -/

structure Bar where
  ts : ℤ
  openP : ℚ
  high : ℚ
  low : ℚ
  close : ℚ
  volume : ℚ
deriving DecidableEq

/-- Placeholder bar for out-of-range positional access (never reached on
the in-range accesses the code performs). -/
def dummyBar : Bar := ⟨0, 0, 0, 0, 0, 0⟩

/-- The diagnostic produced by `MathBrain.validate_data`, in the code's
check order: `none` means the series passes. -/
def validateDiag (df : List Bar) : Option String :=
  if df.isEmpty then some "DataFrame为空"
  else if df.any (fun b => decide (b.high < b.low)) then some "发现高价低于低价的异常数据"
  else if df.any (fun b => decide (b.close ≤ 0)) then some "发现非正数的收盘价"
  else none

/-- `MathBrain.validate_data`: `True` exactly when no diagnostic fires. -/
def validate_data (df : List Bar) : Bool := (validateDiag df).isNone

/-! ## Event study
Embedding of `TrendAnalyzer.analyze_events`
(`eth_hma_analysis/core/trend_analyzer.py`, lines 120-180). -/

/-- `np.mean` of a nonempty list (pandas/numpy mean); `0/0 = 0` on the
empty list, which the code never averages on the paths modelled here
unless noted. -/
def listMean (l : List ℚ) : ℚ := l.sum / l.length

/-- `np.mean` where the empty list matters: `none` models the `NaN` that
`np.mean([])` produces. -/
def meanQ (l : List ℚ) : Option ℚ :=
  if l.isEmpty then none else some (l.sum / l.length)

/-- `series.pct_change().dropna()`: simple returns of consecutive values
(the leading `NaN` is dropped). -/
def pctChangeReturns (closes : List ℚ) : List ℚ :=
  List.zipWith (fun prev cur => cur / prev - 1) closes closes.tail

/-- Square of `pandas.Series.std()` (sample standard deviation, `ddof=1`):
`none` models the `NaN` returned on fewer than two observations. -/
def sampleVar (l : List ℚ) : Option ℚ :=
  if l.length < 2 then none
  else some ((l.map (fun x => (x - listMean l) ^ 2)).sum / ((l.length : ℚ) - 1))

/-- Square of the annualized volatility of one event window:
`returns.std() * np.sqrt(252 * 24)` squared, i.e. the sample variance of
the window's simple returns times the hard-coded constant `252 * 24`
(`trend_analyzer.py` line 161). -/
def volatilitySqOf (closes : List ℚ) : Option ℚ :=
  (sampleVar (pctChangeReturns closes)).map (fun v => v * (252 * 24))

/-- Modelled from the spec: the spec makes the annualization constant a
caller-supplied configuration input, so the (squared) volatility is the
sample variance of the window's simple returns times a caller-supplied
squared factor. -/
def volatilitySqSpec (closes : List ℚ) (factorSq : ℚ) : Option ℚ :=
  (sampleVar (pctChangeReturns closes)).map (fun v => v * factorSq)

/-- The forward price-change list of one event: for `i = 1..window_after`,
`(close[tp+i]/close[tp] - 1) * 100` whenever `tp + i` is in range
(the loop guard `numeric_idx + i < len(df)` truncates, lines 153-157). -/
def priceChangesAt (closes : List ℚ) (tp : ℕ) (window_after : ℕ) : List ℚ :=
  (List.range window_after).filterMap (fun j =>
    if tp + (j + 1) < closes.length then
      some ((closes.getD (tp + (j + 1)) 0 / closes.getD tp 0 - 1) * 100)
    else none)

/-- Directional consistency of one event (lines 163-167): the fraction of
forward changes whose sign matches the event direction, `0` on an empty
change list. -/
def consistencyOf (event_type : String) (pcs : List ℚ) : ℚ :=
  if pcs.isEmpty then 0
  else if event_type = "up_turn" then
    ((pcs.countP (fun c => decide (0 < c)) : ℕ) : ℚ) / pcs.length
  else ((pcs.countP (fun c => decide (c < 0)) : ℕ) : ℚ) / pcs.length

/-- One row of the event study (`EventAnalysis` dataclass, lines 42-50);
`volatility` is carried squared (see the header note). -/
structure EventAnalysis where
  event_type : String
  event_time : ℤ
  price_at_event : ℚ
  price_changes : List ℚ
  volatilitySq : Option ℚ
  consistency : ℚ
deriving DecidableEq

/-- The body of the `analyze_events` loop for the turning point at
positional index `i` with marker `t`. -/
def eventAt (df : List Bar) (window_before window_after : ℕ) (i : ℕ) (t : ℤ) :
    EventAnalysis :=
  let b := df.getD i dummyBar
  let event_type := if t = 1 then "up_turn" else "down_turn"
  let startW := i - window_before
  let endW := min df.length (i + window_after + 1)
  let windowCloses := ((df.drop startW).take (endW - startW)).map Bar.close
  let price_changes := priceChangesAt (df.map Bar.close) i window_after
  { event_type := event_type
    event_time := b.ts
    price_at_event := b.close
    price_changes := price_changes
    volatilitySq := volatilitySqOf windowCloses
    consistency := consistencyOf event_type price_changes }

/-- `TrendAnalyzer.analyze_events`: one `EventAnalysis` per row whose
`turning_point` marker is nonzero. -/
def analyze_events (df : List Bar) (tcol : List ℤ)
    (window_before window_after : ℕ) : List EventAnalysis :=
  ((tcol.enum).filter (fun p => p.2 != 0)).map
    (fun p => eventAt df window_before window_after p.1 p.2)

/-! ## Trend intervals
Embedding of `TrendAnalyzer.analyze_trend_intervals`
(`eth_hma_analysis/core/trend_analyzer.py`, lines 182-268). -/

/-- `max` of a nonempty list (`np.max` / `Series.max`); `0` on the empty
list, which the code never reaches. -/
def listMax : List ℚ → ℚ
  | [] => 0
  | x :: xs => xs.foldl max x

/-- `min` of a nonempty list (`Series.min`); `0` on the empty list. -/
def listMin : List ℚ → ℚ
  | [] => 0
  | x :: xs => xs.foldl min x

/-- The `TrendInterval` dataclass (lines 21-40).  `start_time`/`end_time`
are held as the bar timestamps (seconds). -/
structure TrendIntervalL where
  start_idx : ℕ
  end_idx : ℕ
  start_time : ℤ
  end_time : ℤ
  trend_direction : String
  start_price : ℚ
  end_price : ℚ
  high_price : ℚ
  low_price : ℚ
  duration : ℕ
  duration_hours : ℚ
  price_change : ℚ
  price_change_pct : ℚ
  pfe : ℚ
  mae : ℚ
  pfe_pct : ℚ
  mae_pct : ℚ
deriving DecidableEq

/-- The direction-dependent PFE of lines 237-244: maximal favourable
excursion for the long (up) or short (down) bias. -/
def pfeOf (t : ℤ) (s h l : ℚ) : ℚ :=
  if t = 1 then (h / s - 1) * 100 else (s / l - 1) * 100

/-- The direction-dependent MAE of lines 237-244: maximal adverse
excursion for the long (up) or short (down) bias. -/
def maeOf (t : ℤ) (s h l : ℚ) : ℚ :=
  if t = 1 then (s / l - 1) * 100 else (h / s - 1) * 100

/-- One loop body of `analyze_trend_intervals` for the adjacent
turning-point pair `p` (start) and `q` (end): interval data is the closed
slice `[start_idx, end_idx]`, extremes are taken over it, and PFE/MAE
follow the direction-dependent rule of lines 237-244. -/
def intervalAt (df : List Bar) (p q : ℕ × ℤ) : TrendIntervalL :=
  let i := p.1
  let j := q.1
  let sb := df.getD i dummyBar
  let eb := df.getD j dummyBar
  let direction := if p.2 = 1 then "up" else "down"
  let data := (df.drop i).take (j + 1 - i)
  let s := sb.close
  let e := eb.close
  let h := listMax (data.map Bar.high)
  let l := listMin (data.map Bar.low)
  let pfeV := pfeOf p.2 s h l
  let maeV := maeOf p.2 s h l
  { start_idx := i
    end_idx := j
    start_time := sb.ts
    end_time := eb.ts
    trend_direction := direction
    start_price := s
    end_price := e
    high_price := h
    low_price := l
    duration := j - i
    duration_hours := ((eb.ts - sb.ts : ℤ) : ℚ) / 3600
    price_change := e - s
    price_change_pct := (e / s - 1) * 100
    pfe := pfeV
    mae := maeV
    pfe_pct := pfeV
    mae_pct := maeV }

/-- `TrendAnalyzer.analyze_trend_intervals`: one interval per adjacent
turning-point pair (fewer than two turning points yields the empty list,
lines 198-200). -/
def analyze_trend_intervals (df : List Bar) (tcol : List ℤ) : List TrendIntervalL :=
  let tps := (tcol.enum).filter (fun p => p.2 != 0)
  List.zipWith (fun p q => intervalAt df p q) tps tps.tail

/-! ## Directional (long/short) interval metrics
Embedding of `TrendAnalyzer.analyze_uptrend_metrics` (lines 363-454) and
`TrendAnalyzer.analyze_downtrend_metrics` (lines 270-361). -/

/-- Value of the `risk_reward_ratio` entry: a finite rational or the
`float('inf')` sentinel. -/
inductive RRR where
  | fin (q : ℚ) : RRR
  | inf : RRR
deriving DecidableEq

/-- One per-interval metrics record (the dict built in either loop).
Field correspondence, uptrend / downtrend:
`ideal_profit` = `long_ideal_profit` / `short_ideal_profit`,
`actual_profit` = `long_actual_profit` / `short_actual_profit`,
`risk_loss` = `long_risk_loss` / `short_risk_loss`. -/
structure DirMetrics where
  start_time : ℤ
  end_time : ℤ
  start_price : ℚ
  end_price : ℚ
  high_price : ℚ
  low_price : ℚ
  ideal_profit : ℚ
  actual_profit : ℚ
  risk_loss : ℚ
  max_decline : ℚ
  max_rally : ℚ
  rrr : RRR
  duration : ℕ
  duration_hours : ℚ
deriving DecidableEq

/-- The uptrend metrics dict (lines 405-428): long-bias formulas, with
`risk_reward_ratio = (h/s - 1) / (s/l - 1)` when `s/l - 1 > 0`, else
`float('inf')` (line 423). -/
def uptrendMetricsRecord (ts te : ℤ) (s e h l : ℚ) (dur : ℕ) (durH : ℚ) :
    DirMetrics :=
  { start_time := ts
    end_time := te
    start_price := s
    end_price := e
    high_price := h
    low_price := l
    ideal_profit := (h / s - 1) * 100
    actual_profit := (e / s - 1) * 100
    risk_loss := (s / l - 1) * 100
    max_rally := (h / s - 1) * 100
    max_decline := (s / l - 1) * 100
    rrr := if 0 < s / l - 1 then RRR.fin ((h / s - 1) / (s / l - 1)) else RRR.inf
    duration := dur
    duration_hours := durH }

/-- The downtrend metrics dict (lines 312-335): short-bias formulas, with
`risk_reward_ratio = (s/l - 1) / (h/s - 1)` when `h/s - 1 > 0`, else
`float('inf')` (line 330). -/
def downtrendMetricsRecord (ts te : ℤ) (s e h l : ℚ) (dur : ℕ) (durH : ℚ) :
    DirMetrics :=
  { start_time := ts
    end_time := te
    start_price := s
    end_price := e
    high_price := h
    low_price := l
    ideal_profit := (s / l - 1) * 100
    actual_profit := (s / e - 1) * 100
    risk_loss := (h / s - 1) * 100
    max_decline := (s / l - 1) * 100
    max_rally := (h / s - 1) * 100
    rrr := if 0 < h / s - 1 then RRR.fin ((s / l - 1) / (h / s - 1)) else RRR.inf
    duration := dur
    duration_hours := durH }

/-- `np.mean` over the finite risk/reward ratios only: the comprehension
filter `!= float('inf')` (lines 344/437) drops the sentinel, and an
all-infinite (or empty) list averages to `0` (lines 354/447). -/
def avgRiskReward (rs : List RRR) : ℚ :=
  let fs := rs.filterMap (fun r => match r with | RRR.fin q => some q | RRR.inf => none)
  if fs.isEmpty then 0 else listMean fs

/-- The aggregate block of either directional summary. -/
structure TrendStats where
  avg_ideal : ℚ
  max_ideal : ℚ
  avg_actual : ℚ
  max_actual : ℚ
  avg_risk : ℚ
  max_risk : ℚ
  avg_rrr : ℚ
deriving DecidableEq

/-- Result of either directional analysis: the code returns a dict of a
different shape (`{total: 0, intervals: []}`) when no interval of the
direction exists. -/
inductive DirSummary where
  | empty : DirSummary
  | stats (total : ℕ) (st : TrendStats) (intervals : List DirMetrics) : DirSummary
deriving DecidableEq

/-- The summary statistics over a list of per-interval records
(lines 433-451 resp. 340-358). -/
def summarize (records : List DirMetrics) : DirSummary :=
  match records with
  | [] => DirSummary.empty
  | _ =>
    let ideals := records.map DirMetrics.ideal_profit
    let actuals := records.map DirMetrics.actual_profit
    let risks := records.map DirMetrics.risk_loss
    DirSummary.stats records.length
      { avg_ideal := listMean ideals
        max_ideal := listMax ideals
        avg_actual := listMean actuals
        max_actual := listMax actuals
        avg_risk := listMean risks
        max_risk := listMax risks
        avg_rrr := avgRiskReward (records.map DirMetrics.rrr) }
      records

/-- The per-interval records of `analyze_uptrend_metrics`: adjacent
turning-point pairs whose start is an up-turn (`turning_point == 1`). -/
def uptrendRecords (df : List Bar) (tcol : List ℤ) : List DirMetrics :=
  let tps := (tcol.enum).filter (fun p => p.2 != 0)
  (List.zipWith (fun p q => (p, q)) tps tps.tail).filterMap (fun pq =>
    if pq.1.2 = 1 then
      let i := pq.1.1
      let j := pq.2.1
      let sb := df.getD i dummyBar
      let eb := df.getD j dummyBar
      let data := (df.drop i).take (j + 1 - i)
      some (uptrendMetricsRecord sb.ts eb.ts sb.close eb.close
        (listMax (data.map Bar.high)) (listMin (data.map Bar.low))
        (j - i) (((eb.ts - sb.ts : ℤ) : ℚ) / 3600))
    else none)

/-- The per-interval records of `analyze_downtrend_metrics`: adjacent
turning-point pairs whose start is a down-turn (`turning_point == -1`). -/
def downtrendRecords (df : List Bar) (tcol : List ℤ) : List DirMetrics :=
  let tps := (tcol.enum).filter (fun p => p.2 != 0)
  (List.zipWith (fun p q => (p, q)) tps tps.tail).filterMap (fun pq =>
    if pq.1.2 = -1 then
      let i := pq.1.1
      let j := pq.2.1
      let sb := df.getD i dummyBar
      let eb := df.getD j dummyBar
      let data := (df.drop i).take (j + 1 - i)
      some (downtrendMetricsRecord sb.ts eb.ts sb.close eb.close
        (listMax (data.map Bar.high)) (listMin (data.map Bar.low))
        (j - i) (((eb.ts - sb.ts : ℤ) : ℚ) / 3600))
    else none)

/-- `TrendAnalyzer.analyze_uptrend_metrics`. -/
def analyze_uptrend_metrics (df : List Bar) (tcol : List ℤ) : DirSummary :=
  summarize (uptrendRecords df tcol)

/-- `TrendAnalyzer.analyze_downtrend_metrics`. -/
def analyze_downtrend_metrics (df : List Bar) (tcol : List ℤ) : DirSummary :=
  summarize (downtrendRecords df tcol)

/-! ## Report aggregation
Embedding of `TrendAnalyzer.generate_trend_report` (lines 456-540). -/

/-- The `summary` block. -/
structure Summary where
  total_intervals : ℕ
  up_intervals : ℕ
  down_intervals : ℕ
  total_events : ℕ
  up_events : ℕ
  down_events : ℕ
deriving DecidableEq

/-- One direction group of `interval_analysis` (lines 490-513). -/
structure TrendGroupStats where
  count : ℕ
  avg_duration : ℚ
  avg_price_change_pct : ℚ
  max_price_change_pct : ℚ
  min_price_change_pct : ℚ
  avg_pfe_pct : ℚ
  max_pfe_pct : ℚ
  avg_mae_pct : ℚ
  max_mae_pct : ℚ
  win_rate : ℚ
deriving DecidableEq

/-- The `profit_loss_ratio` entry (lines 534-537): absent unless both
direction groups are nonempty; `nan` models the `NaN` that arises when no
up-interval has a positive return; `inf` the `float('inf')` branch. -/
inductive PLR where
  | absent : PLR
  | nan : PLR
  | inf : PLR
  | fin (q : ℚ) : PLR
deriving DecidableEq

/-- One direction group of `event_analysis` (lines 516-529);
`avg_volatilitySq`/`avg_price_change_*` are `none` where the Python value
is `NaN` (a `NaN` volatility in the group, or `np.mean` of an empty
comprehension). -/
structure EventGroupStats where
  count : ℕ
  avg_volatilitySq : Option ℚ
  avg_consistency : ℚ
  avg_price_change_1h : Option ℚ
  avg_price_change_5h : Option ℚ
deriving DecidableEq

/-- The non-error report body. -/
structure ReportBody where
  summary : Summary
  up_trends : TrendGroupStats
  down_trends : TrendGroupStats
  plr : PLR
  up_turns : EventGroupStats
  down_turns : EventGroupStats
deriving DecidableEq

/-- Result of `generate_trend_report`: either the error dict
`{"error": ...}` (which has no summary, interval or event groups) or a
full report. -/
inductive ReportResult where
  | error (msg : String) : ReportResult
  | report (body : ReportBody) : ReportResult
deriving DecidableEq

/-- One direction group of `interval_analysis`; `up` selects the win-rate
predicate (`> 0` for up-trends, `< 0` for down-trends, lines 500/512).
Every aggregate is guarded by `if <group> else 0` in the code. -/
def trendGroupStats (up : Bool) (l : List TrendIntervalL) : TrendGroupStats :=
  match l with
  | [] => ⟨0, 0, 0, 0, 0, 0, 0, 0, 0, 0⟩
  | _ =>
    let pcts := l.map TrendIntervalL.price_change_pct
    let pfes := l.map TrendIntervalL.pfe_pct
    let maes := l.map TrendIntervalL.mae_pct
    { count := l.length
      avg_duration := listMean (l.map (fun i => (i.duration : ℚ)))
      avg_price_change_pct := listMean pcts
      max_price_change_pct := listMax pcts
      min_price_change_pct := listMin pcts
      avg_pfe_pct := listMean pfes
      max_pfe_pct := listMax pfes
      avg_mae_pct := listMean maes
      max_mae_pct := listMax maes
      win_rate :=
        if up then ((l.countP (fun i => decide (0 < i.price_change_pct)) : ℕ) : ℚ) / l.length
        else ((l.countP (fun i => decide (i.price_change_pct < 0)) : ℕ) : ℚ) / l.length }

/-- `np.mean` of the events' volatilities: `0` on an empty group (the
`if <group> else 0` guard), `NaN` (`none`) as soon as one volatility is
`NaN`, else the mean. -/
def meanVol (es : List EventAnalysis) : Option ℚ :=
  if es.isEmpty then some 0
  else if es.any (fun e => e.volatilitySq.isNone) then none
  else some (listMean (es.filterMap EventAnalysis.volatilitySq))

/-- One direction group of `event_analysis` (lines 516-521): the 1-hour /
5-hour forward-change means are over the events having enough forward
bars, and are `NaN` (`none`) when no event qualifies while the group is
nonempty (`np.mean([])`). -/
def eventGroupStats (es : List EventAnalysis) : EventGroupStats :=
  if es.isEmpty then ⟨0, some 0, 0, some 0, some 0⟩
  else
    { count := es.length
      avg_volatilitySq := meanVol es
      avg_consistency := listMean (es.map EventAnalysis.consistency)
      avg_price_change_1h :=
        meanQ ((es.filter (fun e => decide (0 < e.price_changes.length))).map
          (fun e => e.price_changes.getD 0 0))
      avg_price_change_5h :=
        meanQ ((es.filter (fun e => decide (4 < e.price_changes.length))).map
          (fun e => e.price_changes.getD 4 0)) }

/-- The `profit_loss_ratio` computation (lines 534-537), with Python float
semantics spelled out: an empty negative-down-returns comprehension makes
the denominator `abs(NaN) = NaN`, `NaN > 0` is `False`, so the branch
yields `inf`; an empty positive-up-returns comprehension with a nonempty
denominator yields `NaN / x = NaN`. -/
def profitLossOf (ups downs : List TrendIntervalL) : PLR :=
  if ups.isEmpty || downs.isEmpty then PLR.absent
  else
    let posU := (ups.map TrendIntervalL.price_change_pct).filter (fun x => decide (0 < x))
    let negD := (downs.map TrendIntervalL.price_change_pct).filter (fun x => decide (x < 0))
    if negD.isEmpty then PLR.inf
    else if posU.isEmpty then PLR.nan
    else if 0 < |listMean negD| then PLR.fin (listMean posU / |listMean negD|)
    else PLR.inf

/-- `TrendAnalyzer.generate_trend_report`: the empty interval list
short-circuits to the error dict (lines 469-470) whatever the events are. -/
def generate_trend_report (intervals : List TrendIntervalL)
    (events : List EventAnalysis) : ReportResult :=
  match intervals with
  | [] => ReportResult.error "没有可分析的区间数据"
  | _ =>
    let ups := intervals.filter (fun i => i.trend_direction == "up")
    let downs := intervals.filter (fun i => i.trend_direction == "down")
    let upE := events.filter (fun e => e.event_type == "up_turn")
    let downE := events.filter (fun e => e.event_type == "down_turn")
    ReportResult.report
      { summary := ⟨intervals.length, ups.length, downs.length,
          events.length, upE.length, downE.length⟩
        up_trends := trendGroupStats true ups
        down_trends := trendGroupStats false downs
        plr := profitLossOf ups downs
        up_turns := eventGroupStats upE
        down_turns := eventGroupStats downE }

/-! ## The complete pipeline
Embedding of `TrendAnalyzer.run_complete_analysis` (lines 542-586).  The
frame handed in already carries the HMA column (`hma`); the wall-clock
reading of `pd.Timestamp.now()` (line 581) is the explicit `now` input. -/

/-- The `analysis_metadata` block (lines 577-582). -/
structure AnalysisMetadata where
  hma_period : ℕ
  slope_threshold : ℚ
  total_data_points : ℕ
  analysis_timestamp : ℤ
deriving DecidableEq

/-- The merged dict returned by `run_complete_analysis`. -/
structure CompleteReport where
  base : ReportResult
  uptrend_analysis : DirSummary
  downtrend_analysis : DirSummary
  metadata : AnalysisMetadata
deriving DecidableEq

/-- `TrendAnalyzer.run_complete_analysis`: slope/turning-point detection,
event study, interval analysis, both directional analyses, base report,
and the metadata block stamped with the current wall-clock reading. -/
def run_complete_analysis (hma_period : ℕ) (slope_threshold : ℚ)
    (df : List Bar) (hma : List (Option ℚ))
    (window_before window_after : ℕ) (now : ℤ) : CompleteReport :=
  let tcol := turningCol hma slope_threshold
  let events := analyze_events df tcol window_before window_after
  let intervals := analyze_trend_intervals df tcol
  let up := analyze_uptrend_metrics df tcol
  let down := analyze_downtrend_metrics df tcol
  { base := generate_trend_report intervals events
    uptrend_analysis := up
    downtrend_analysis := down
    metadata := ⟨hma_period, slope_threshold, df.length, now⟩ }

/-! ## Spec-side excursion rule (§4.4)
A second definition following the spec's words, to be compared with the
code-side records above. -/

/-- Modelled from the spec: the direction-dependent excursion triple
`(ideal_profit_pct, actual_profit_pct, risk_loss_pct)` of §4.4. -/
def excursionSpec (direction : String) (s e h l : ℚ) : ℚ × ℚ × ℚ :=
  if direction = "up" then ((h / s - 1) * 100, (e / s - 1) * 100, (s / l - 1) * 100)
  else ((s / l - 1) * 100, (s / e - 1) * 100, (h / s - 1) * 100)

theorem changesList_eq_changesFrom (x : Option ℤ) (rest : List (Option ℤ)) :
    changesList (x :: rest) = 0 :: changesFrom x rest := by
  suffices h : ∀ (l : List (Option ℤ)) (p : Option ℤ),
      List.zipWith changeAt (p :: l) l = changesFrom p l by
    simp [changesList, h]
  intro l
  induction l with
  | nil => intro p; rfl
  | cons a rest ih => intro p; simp [changesFrom, ih]

theorem changesFrom_none_replicate (k : ℕ) (l : List (Option ℤ)) :
    changesFrom none (List.replicate k none ++ l)
      = List.replicate k 0 ++ changesFrom none l := by
  induction k with
  | zero => rfl
  | succ k ih => simp [List.replicate_succ, changesFrom, changeAt, ih]

theorem changesFrom_some_map (d : ℤ) (ss : List ℤ) :
    changesFrom (some d) (ss.map some) = diffsFrom d ss := by
  induction ss generalizing d with
  | nil => rfl
  | cons a rest ih => simp [changesFrom, changeAt, diffsFrom, ih]

theorem enumFrom_filter_map_snd (xs : List ℤ) (i : ℕ) :
    (((List.enumFrom i xs).filter (fun p => p.2 != 0)).map Prod.snd)
      = xs.filter (fun x => x != 0) := by
  induction xs generalizing i with
  | nil => rfl
  | cons x rest ih =>
    by_cases hx : x = 0
    · subst hx; simp [List.enumFrom, List.filter_cons, ih]
    · have hx' : (x != 0) = true := by simpa using hx
      simp [List.enumFrom, List.filter_cons, hx', ih]

theorem turnOfChange_zero : turnOfChange 0 = 0 := rfl

theorem filter_map_turn_replicate_append (z : ℕ) (l : List ℤ) :
    (((List.replicate z (0:ℤ) ++ l).map turnOfChange).filter (fun x => x != 0))
      = (l.map turnOfChange).filter (fun x => x != 0) := by
  induction z with
  | zero => rfl
  | succ z ih => simp [List.replicate_succ, List.filter_cons, turnOfChange_zero, ih]

theorem altFromZ_diffsFrom (ss : List ℤ) (hss : ∀ x ∈ ss, x = 1 ∨ x = -1) :
    ∀ d, (d = 1 ∨ d = -1) →
      altFromZ d (((diffsFrom d ss).map turnOfChange).filter (fun x => x != 0)) = true := by
  induction ss with
  | nil => intro d _; rfl
  | cons a rest ih =>
    intro d hd
    have ha : a = 1 ∨ a = -1 := hss a (List.mem_cons_self a rest)
    have hrest : ∀ x ∈ rest, x = 1 ∨ x = -1 := fun x hx => hss x (List.mem_cons_of_mem a hx)
    by_cases had : a = d
    · subst had
      simp only [diffsFrom, sub_self, List.map_cons, turnOfChange_zero, List.filter_cons,
        bne_self_eq_false]
      exact ih hrest a ha
    · have hturn : turnOfChange (a - d) = a := by
        rcases ha with ha | ha <;> rcases hd with hd | hd <;>
          subst ha <;> subst hd <;> simp_all [turnOfChange]
      have haneg : a = -d := by
        rcases ha with ha | ha <;> rcases hd with hd | hd <;> omega
      have hne : (a != 0) = true := by
        rcases ha with ha | ha <;> subst ha <;> decide
      simp only [diffsFrom, List.map_cons, hturn, List.filter_cons, hne, altFromZ,
        if_true, Bool.and_eq_true]
      exact ⟨by simp [haneg], ih hrest a ha⟩

theorem alternatingZ_of_altFromZ (l : List ℤ) :
    ∀ d, (d = 1 ∨ d = -1) → altFromZ d l = true → alternatingZ l = true := by
  induction l with
  | nil => intro d _ _; rfl
  | cons a rest ih =>
    intro d hd h
    rw [altFromZ, Bool.and_eq_true] at h
    obtain ⟨ha, hrest⟩ := h
    have ha' : a = -d := by simpa using ha
    have hapm : a = 1 ∨ a = -1 := by rcases hd with hd | hd <;> subst hd <;> omega
    cases rest with
    | nil => rfl
    | cons b rest' =>
      rw [alternatingZ, Bool.and_eq_true]
      refine ⟨?_, ih a hapm hrest⟩
      rw [altFromZ, Bool.and_eq_true] at hrest
      have hb : b = -a := by simpa using hrest.1
      have : a ≠ b := by subst hb; rcases hapm with h | h <;> subst h <;> decide
      simpa using this

example : turningCol [none, some 10, some 9, some 10, some 10, some 9, some 10] 0
    = [0, 0, 0, 1, 0, 0, 1] := by
  norm_num [turningCol, turningColRaw, changesList, signsList, slopesList, signQ,
    changeAt, turnOfChange]

example : tpList [none, some 10, some 9, some 10, some 10, some 9, some 10] 0
    = [(3, 1), (6, 1)] := by
  norm_num [tpList, turningCol, turningColRaw, changesList, signsList, slopesList, signQ,
    changeAt, turnOfChange, List.enum, List.enumFrom, List.filter]
  decide

theorem filter_map_turn_cons_zero (l : List ℤ) :
    (((0 :: l).map turnOfChange).filter (fun x => x != 0))
      = (l.map turnOfChange).filter (fun x => x != 0) := by
  simp [List.filter_cons, turnOfChange_zero]

theorem changesFrom_none_replicate_nil (k : ℕ) :
    changesFrom none (List.replicate k (none : Option ℤ)) = List.replicate k 0 := by
  simpa [changesFrom] using changesFrom_none_replicate k []

theorem filter_map_turn_replicate (z : ℕ) :
    ((List.replicate z (0:ℤ)).map turnOfChange).filter (fun x => x != 0) = [] := by
  simpa using filter_map_turn_replicate_append z []

/-- C2 (counterexample): with `slope_threshold = 0`, an HMA series whose
slope passes through an exact zero between two sign changes produces two
consecutive up-turns, so the detected turning points do not alternate. -/
theorem c2_counterexample :
    alternatingZ ((tpList [none, some 10, some 9, some 10, some 10, some 9, some 10] 0).map
      Prod.snd) = false := by
  have h : tpList [none, some 10, some 9, some 10, some 10, some 9, some 10] 0
      = [(3, 1), (6, 1)] := by
    norm_num [tpList, turningCol, turningColRaw, changesList, signsList, slopesList, signQ,
      changeAt, turnOfChange, List.enum, List.enumFrom, List.filter]
    decide
  rw [h]
  rfl

/-- C2 (amended): with `slope_threshold = 0`, if the slope-sign series is an
undefined warm-up prefix followed by defined signs that are all `±1` (no
zero and no mid-series undefined slope), then consecutive detected turning
points strictly alternate in direction. -/
theorem c2_alternation_amended (hma : List (Option ℚ)) (m : ℕ) (ss : List ℤ)
    (hshape : signsList hma = List.replicate m none ++ ss.map some)
    (hpm : ∀ x ∈ ss, x = 1 ∨ x = -1) :
    alternatingZ ((tpList hma 0).map Prod.snd) = true := by
  have hcol : turningCol hma 0 = turningColRaw hma := by
    simp [turningCol]
  have hdirs : (tpList hma 0).map Prod.snd
      = (turningColRaw hma).filter (fun x => x != 0) := by
    rw [tpList, hcol]
    simpa [List.enum] using enumFrom_filter_map_snd (turningColRaw hma) 0
  rw [hdirs, turningColRaw, hshape]
  cases m with
  | zero =>
    cases ss with
    | nil => rfl
    | cons s rest =>
      have hs : s = 1 ∨ s = -1 := hpm s (List.mem_cons_self s rest)
      have hrest : ∀ x ∈ rest, x = 1 ∨ x = -1 :=
        fun x hx => hpm x (List.mem_cons_of_mem s hx)
      simp only [List.replicate, List.nil_append, List.map_cons,
        changesList_eq_changesFrom, changesFrom, changeAt, changesFrom_some_map,
        filter_map_turn_cons_zero]
      exact alternatingZ_of_altFromZ _ s hs (altFromZ_diffsFrom rest hrest s hs)
  | succ k =>
    cases ss with
    | nil =>
      have key : (List.filter (fun x => x != 0) (List.map turnOfChange
          (changesList (List.replicate (k + 1) (none : Option ℤ)
            ++ ([] : List ℤ).map some)))) = [] := by
        simp [List.replicate_succ, changesList_eq_changesFrom, changesFrom,
          changesFrom_none_replicate_nil, List.filter_cons, turnOfChange_zero,
          List.filter_append, filter_map_turn_replicate]
      rw [key]
      rfl
    | cons s rest =>
      have hs : s = 1 ∨ s = -1 := hpm s (List.mem_cons_self s rest)
      have hrest : ∀ x ∈ rest, x = 1 ∨ x = -1 :=
        fun x hx => hpm x (List.mem_cons_of_mem s hx)
      have key : (List.filter (fun x => x != 0) (List.map turnOfChange
          (changesList (List.replicate (k + 1) (none : Option ℤ)
            ++ (s :: rest).map some))))
          = List.filter (fun x => x != 0) (List.map turnOfChange (diffsFrom s rest)) := by
        simp [List.replicate_succ, changesList_eq_changesFrom, changesFrom,
          changesFrom_none_replicate, changeAt, changesFrom_some_map, List.filter_cons,
          turnOfChange_zero, List.filter_append, filter_map_turn_replicate]
      rw [key]
      exact alternatingZ_of_altFromZ _ s hs (altFromZ_diffsFrom rest hrest s hs)

/-- Witness for the amended C2 theorem at a concrete HMA series with
nonzero slopes after the warm-up prefix. -/
theorem c2_alternation_amended_witness :
    alternatingZ ((tpList [none, some 1, some 2, some 1] 0).map Prod.snd) = true :=
  c2_alternation_amended [none, some 1, some 2, some 1] 2 [1, -1]
    (by norm_num [signsList, slopesList, signQ, changeAt, List.replicate])
    (by decide)

theorem calculate_wma_length (data : List (Option ℚ)) (p : ℕ) :
    (calculate_wma data p).length = data.length := by
  unfold calculate_wma
  by_cases h : data.length < p
  · simp [h]
  · simp [h]

theorem calculate_hma_length (data : List (Option ℚ)) (p : ℕ) :
    (calculate_hma data p).length = data.length := by
  unfold calculate_hma
  by_cases h : data.length < p
  · simp [h]
  · simp [h, calculate_wma_length, List.length_zipWith]

/-- C7: `calculate_hma` preserves the input length for every positive
period, and a series shorter than the period yields the all-undefined
series of the same length (no exception path exists: the function is
total). -/
theorem c7_smoothing_length (data : List (Option ℚ)) (period : ℕ) (_hp : 0 < period) :
    (calculate_hma data period).length = data.length ∧
      (data.length < period → calculate_hma data period = data.map (fun _ => none)) := by
  refine ⟨calculate_hma_length data period, fun h => ?_⟩
  unfold calculate_hma
  simp [h]

/-- Witness for C7 at a two-point series and period `3`. -/
theorem c7_smoothing_length_witness :
    (calculate_hma [some 1, some 2] 3).length = ([some 1, some 2] : List (Option ℚ)).length ∧
      (([some 1, some 2] : List (Option ℚ)).length < 3 →
        calculate_hma [some 1, some 2] 3
          = ([some 1, some 2] : List (Option ℚ)).map (fun _ => none)) :=
  c7_smoothing_length [some 1, some 2] 3 (by decide)

/-- C4 (counterexample): the code's final smoothing window is
`max(1, int(np.sqrt(period)))` — truncation — not the spec's
`max(1, round(sqrt(period)))`: at `period = 3` they differ (`1` vs `2`),
and `calculate_hma` observably differs from the spec-worded variant on the
series `[1, 2, 4]`. -/
theorem c4_counterexample :
    sqrtPeriodInt 3 ≠ sqrtPeriodRound 3 ∧
      calculate_hma [some 1, some 2, some 4] 3
        ≠ calculate_hma_roundSpec [some 1, some 2, some 4] 3 := by
  have h3 : Nat.sqrt 3 = 1 := (Nat.eq_sqrt.mpr (by norm_num)).symm
  constructor
  · simp [sqrtPeriodInt, sqrtPeriodRound, roundSqrt, h3]
  · have h1 : calculate_hma [some 1, some 2, some 4] 3 = [none, none, some (31/6)] := by
      norm_num [calculate_hma, calculate_wma, wmaWindow, allSome, halfPeriod, sqrtPeriodInt,
        h3, List.range_succ, List.range_zero]
    have h2 : calculate_hma_roundSpec [some 1, some 2, some 4] 3 = [none, none, none] := by
      norm_num [calculate_hma_roundSpec, calculate_wma, wmaWindow, allSome, halfPeriod,
        sqrtPeriodRound, roundSqrt, h3, List.range_succ, List.range_zero]
    rw [h1, h2]
    simp

/-- C4 (amended): `calculate_hma` derives its windows as
`half = max(1, period // 2)`, `full = period`, and
`sqrt_n = max(1, floor(sqrt(period)))` — the floor, not the nearest
integer, of the square root. -/
theorem c4_windows_amended (period : ℕ) (_hp : 0 < period) :
    halfPeriod period = max 1 (period / 2) ∧
      sqrtPeriodInt period = max 1 (Nat.sqrt period) ∧
      Nat.sqrt period * Nat.sqrt period ≤ period ∧
      period < (Nat.sqrt period + 1) * (Nat.sqrt period + 1) :=
  ⟨rfl, rfl, Nat.sqrt_le period, Nat.lt_succ_sqrt period⟩

/-- Witness for the amended C4 theorem at the conventional period `45`. -/
theorem c4_windows_amended_witness :
    halfPeriod 45 = max 1 (45 / 2) ∧
      sqrtPeriodInt 45 = max 1 (Nat.sqrt 45) ∧
      Nat.sqrt 45 * Nat.sqrt 45 ≤ 45 ∧
      45 < (Nat.sqrt 45 + 1) * (Nat.sqrt 45 + 1) :=
  c4_windows_amended 45 (by decide)

/-- C5 (counterexample): `validate_data` accepts a series whose timestamps
are not strictly increasing (two bars with the same timestamp), so
non-monotonic timestamps are not rejected. -/
theorem c5_counterexample :
    validate_data [⟨100, 1, 2, 1, 1, 0⟩, ⟨100, 1, 2, 1, 1, 0⟩] = true ∧
      ¬ List.Chain' (fun a b : Bar => a.ts < b.ts)
        [⟨100, 1, 2, 1, 1, 0⟩, ⟨100, 1, 2, 1, 1, 0⟩] := by
  constructor
  · norm_num [validate_data, validateDiag, List.any_cons, List.any_nil]
  · simp [List.chain'_cons]

/-- C5 (amended): validation rejects exactly an empty series, any bar with
`high < low`, and any non-positive close — each through its own specific
diagnostic branch — and a series passes if and only if it is nonempty with
`low ≤ high` and `close > 0` on every bar; timestamps are never examined. -/
theorem c5_validation_amended (df : List Bar) :
    validate_data df = true ↔
      df ≠ [] ∧ (∀ b ∈ df, b.low ≤ b.high) ∧ (∀ b ∈ df, 0 < b.close) := by
  unfold validate_data validateDiag
  by_cases h1 : df.isEmpty
  · rw [if_pos h1]
    simp [List.isEmpty_iff.mp h1]
  · rw [if_neg h1]
    have hne : df ≠ [] := by simpa [List.isEmpty_iff] using h1
    by_cases h2 : df.any (fun b => decide (b.high < b.low))
    · rw [if_pos h2]
      have hviol : ¬ ∀ b ∈ df, b.low ≤ b.high := by
        simp only [List.any_eq_true, decide_eq_true_eq] at h2
        obtain ⟨b, hb, hlt⟩ := h2
        exact fun hall => absurd (hall b hb) (not_le.mpr hlt)
      simp [hviol]
    · rw [if_neg h2]
      have hok2 : ∀ b ∈ df, b.low ≤ b.high := by simpa using h2
      by_cases h3 : df.any (fun b => decide (b.close ≤ 0))
      · rw [if_pos h3]
        have hviol : ¬ ∀ b ∈ df, 0 < b.close := by
          simp only [List.any_eq_true, decide_eq_true_eq] at h3
          obtain ⟨b, hb, hle⟩ := h3
          exact fun hall => absurd (hall b hb) (not_lt.mpr hle)
        simp [hviol]
      · rw [if_neg h3]
        have hok3 : ∀ b ∈ df, 0 < b.close := by simpa using h3
        simp only [Option.isNone_none, true_iff]
        exact ⟨hne, hok2, hok3⟩

/-- Witness for the amended C5 theorem: a one-bar valid series passes. -/
theorem c5_validation_amended_witness :
    validate_data [⟨0, 1, 2, 1, 1, 5⟩] = true :=
  (c5_validation_amended [⟨0, 1, 2, 1, 1, 5⟩]).mpr
    ⟨by simp, by intro b hb; simp at hb; subst hb; norm_num,
      by intro b hb; simp at hb; subst hb; norm_num⟩

/-- C1: over strictly positive prices, both directional metric records
compute exactly the spec's direction-dependent excursion triple — up/long:
ideal `(h/s - 1)·100`, actual `(e/s - 1)·100`, risk `(s/l - 1)·100`;
down/short: ideal `(s/l - 1)·100`, actual `(s/e - 1)·100`, risk
`(h/s - 1)·100`. -/
theorem c1_excursion_rule (ts te : ℤ) (s e h l : ℚ) (dur : ℕ) (durH : ℚ)
    (_hs : 0 < s) (_he : 0 < e) (_hh : 0 < h) (_hl : 0 < l) :
    ((uptrendMetricsRecord ts te s e h l dur durH).ideal_profit,
      (uptrendMetricsRecord ts te s e h l dur durH).actual_profit,
      (uptrendMetricsRecord ts te s e h l dur durH).risk_loss)
        = excursionSpec "up" s e h l ∧
    ((downtrendMetricsRecord ts te s e h l dur durH).ideal_profit,
      (downtrendMetricsRecord ts te s e h l dur durH).actual_profit,
      (downtrendMetricsRecord ts te s e h l dur durH).risk_loss)
        = excursionSpec "down" s e h l := by
  constructor <;> simp [uptrendMetricsRecord, downtrendMetricsRecord, excursionSpec]

/-- Witness for C1 at the concrete positive prices
`s = 1, e = 2, h = 3, l = 1/2`. -/
theorem c1_excursion_rule_witness :
    ((uptrendMetricsRecord 0 1 1 2 3 (1/2) 1 0).ideal_profit,
      (uptrendMetricsRecord 0 1 1 2 3 (1/2) 1 0).actual_profit,
      (uptrendMetricsRecord 0 1 1 2 3 (1/2) 1 0).risk_loss)
        = excursionSpec "up" 1 2 3 (1/2) ∧
    ((downtrendMetricsRecord 0 1 1 2 3 (1/2) 1 0).ideal_profit,
      (downtrendMetricsRecord 0 1 1 2 3 (1/2) 1 0).actual_profit,
      (downtrendMetricsRecord 0 1 1 2 3 (1/2) 1 0).risk_loss)
        = excursionSpec "down" 1 2 3 (1/2) :=
  c1_excursion_rule 0 1 1 2 3 (1/2) 1 0 (by norm_num) (by norm_num) (by norm_num)
    (by norm_num)

/-- C6: the risk/reward ratio of either directional record is
`ideal_profit_pct / risk_loss_pct` whenever `risk_loss_pct > 0`, is the
`inf` sentinel when the risk loss is zero, and the `inf` sentinel is
excluded from the aggregated mean `avg_risk_reward_ratio`. -/
theorem c6_risk_reward (ts te : ℤ) (s e h l : ℚ) (dur : ℕ) (durH : ℚ) (rs : List RRR) :
    (0 < (s / l - 1) * 100 →
      (uptrendMetricsRecord ts te s e h l dur durH).rrr
        = RRR.fin (((h / s - 1) * 100) / ((s / l - 1) * 100))) ∧
    ((s / l - 1) * 100 = 0 →
      (uptrendMetricsRecord ts te s e h l dur durH).rrr = RRR.inf) ∧
    (0 < (h / s - 1) * 100 →
      (downtrendMetricsRecord ts te s e h l dur durH).rrr
        = RRR.fin (((s / l - 1) * 100) / ((h / s - 1) * 100))) ∧
    ((h / s - 1) * 100 = 0 →
      (downtrendMetricsRecord ts te s e h l dur durH).rrr = RRR.inf) ∧
    avgRiskReward (RRR.inf :: rs) = avgRiskReward rs := by
  refine ⟨?_, ?_, ?_, ?_, ?_⟩
  · intro hpos
    have h0 : 0 < s / l - 1 := by nlinarith
    have hdiv : ((h / s - 1) * 100) / ((s / l - 1) * 100) = (h / s - 1) / (s / l - 1) :=
      mul_div_mul_right _ _ (by norm_num)
    simp only [uptrendMetricsRecord]
    rw [if_pos h0, hdiv]
  · intro hz
    have h0 : ¬ 0 < s / l - 1 := by
      have hz' : s / l - 1 = 0 := by linarith
      simp [hz']
    simp only [uptrendMetricsRecord]
    rw [if_neg h0]
  · intro hpos
    have h0 : 0 < h / s - 1 := by nlinarith
    have hdiv : ((s / l - 1) * 100) / ((h / s - 1) * 100) = (s / l - 1) / (h / s - 1) :=
      mul_div_mul_right _ _ (by norm_num)
    simp only [downtrendMetricsRecord]
    rw [if_pos h0, hdiv]
  · intro hz
    have h0 : ¬ 0 < h / s - 1 := by
      have hz' : h / s - 1 = 0 := by linarith
      simp [hz']
    simp only [downtrendMetricsRecord]
    rw [if_neg h0]
  · simp [avgRiskReward, List.filterMap_cons]

/-- Witness for C6: at `s = 1, l = 1/2, h = 3` the risk loss is positive
and the ratio is the quotient of the percentage figures. -/
theorem c6_risk_reward_witness :
    (uptrendMetricsRecord 0 1 1 2 3 (1/2) 1 0).rrr
      = RRR.fin (((3 / 1 - 1) * 100) / ((1 / (1/2 : ℚ) - 1) * 100)) :=
  (c6_risk_reward 0 1 1 2 3 (1/2) 1 0 []).1 (by norm_num)

theorem priceChangesAt_eq (closes : List ℚ) (tp wa : ℕ) :
    priceChangesAt closes tp wa
      = (List.range (min wa (closes.length - tp - 1))).map
          (fun j => (closes.getD (tp + (j + 1)) 0 / closes.getD tp 0 - 1) * 100) := by
  induction wa with
  | zero => simp [priceChangesAt]
  | succ n ih =>
    rw [priceChangesAt, List.range_succ, List.filterMap_append]
    rw [priceChangesAt] at ih
    by_cases hb : tp + (n + 1) < closes.length
    · have h1 : min (n + 1) (closes.length - tp - 1) = min n (closes.length - tp - 1) + 1 := by
        omega
      have h2 : min n (closes.length - tp - 1) = n := by omega
      rw [h1, List.range_succ, List.map_append, ih, h2]
      simp [hb]
    · have h1 : min (n + 1) (closes.length - tp - 1) = min n (closes.length - tp - 1) := by
        omega
      rw [h1, ih]
      simp [hb]

/-- C8: `price_changes` is exactly the truncated forward-change window —
its length is `min window_after (L - tp - 1)` with the quoted per-entry
formula — and a turning point at the last bar yields an empty list and
`consistency = 0`, with no out-of-range access (the embedding is total). -/
theorem c8_event_truncation (closes : List ℚ) (tp wa : ℕ) (htp : tp < closes.length) :
    (priceChangesAt closes tp wa).length = min wa (closes.length - tp - 1) ∧
    (∀ j < min wa (closes.length - tp - 1),
        (priceChangesAt closes tp wa).getD j 0
          = (closes.getD (tp + (j + 1)) 0 / closes.getD tp 0 - 1) * 100) ∧
    (tp = closes.length - 1 →
      priceChangesAt closes tp wa = [] ∧
      consistencyOf "up_turn" (priceChangesAt closes tp wa) = 0 ∧
      consistencyOf "down_turn" (priceChangesAt closes tp wa) = 0) := by
  refine ⟨?_, ?_, ?_⟩
  · simp [priceChangesAt_eq]
  · intro j hj
    rw [priceChangesAt_eq, List.getD_eq_getElem _ _ (by simpa using hj)]
    simp
  · intro hlast
    have hempty : priceChangesAt closes tp wa = [] := by
      have h0 : min wa (closes.length - tp - 1) = 0 := by omega
      rw [priceChangesAt_eq, h0]
      rfl
    exact ⟨hempty, by rw [hempty]; rfl, by rw [hempty]; rfl⟩

/-- Witness for C8: a turning point at the last bar of a two-bar series. -/
theorem c8_event_truncation_witness :
    (priceChangesAt [1, 2] 1 3).length = min 3 (([1, 2] : List ℚ).length - 1 - 1) ∧
    (∀ j < min 3 (([1, 2] : List ℚ).length - 1 - 1),
        (priceChangesAt [1, 2] 1 3).getD j 0
          = (([1, 2] : List ℚ).getD (1 + (j + 1)) 0 / ([1, 2] : List ℚ).getD 1 0 - 1) * 100) ∧
    (1 = ([1, 2] : List ℚ).length - 1 →
      priceChangesAt [1, 2] 1 3 = [] ∧
      consistencyOf "up_turn" (priceChangesAt [1, 2] 1 3) = 0 ∧
      consistencyOf "down_turn" (priceChangesAt [1, 2] 1 3) = 0) :=
  c8_event_truncation [1, 2] 1 3 (by simp)

/-- C9 (counterexample): the reported (squared) volatility is not the
window's return variance times a caller-supplied factor — at factor `1` on
the window `[1, 2, 3]` the code reports `756` (variance `1/8` times the
hard-coded `252·24`), not `1/8`. -/
theorem c9_counterexample :
    volatilitySqOf [1, 2, 3] ≠ volatilitySqSpec [1, 2, 3] 1 := by
  have h1 : volatilitySqOf [1, 2, 3] = some 756 := by
    norm_num [volatilitySqOf, sampleVar, pctChangeReturns, listMean, List.zipWith]
  have h2 : volatilitySqSpec [1, 2, 3] 1 = some (1/8) := by
    norm_num [volatilitySqSpec, sampleVar, pctChangeReturns, listMean, List.zipWith]
  rw [h1, h2]
  intro hcontra
  have := Option.some.inj hcontra
  norm_num at this

/-- C9 (amended): the annualization constant is hard-coded — for every
event window the reported squared volatility is the sample variance of the
window's simple returns times the fixed `252 · 24`, i.e. the spec-worded
computation instantiated at that one constant, independent of any
configuration. -/
theorem c9_hardcoded_annualization (closes : List ℚ) :
    volatilitySqOf closes = volatilitySqSpec closes (252 * 24) := rfl

/-- C3 (counterexample): two runs of the complete pipeline on identical
input and configuration but at different wall-clock instants differ (the
report embeds the clock reading), so the output is not a pure function of
(price series, configuration) alone. -/
theorem c3_counterexample :
    run_complete_analysis 45 (1/1000) [] [] 5 5 0
      ≠ run_complete_analysis 45 (1/1000) [] [] 5 5 1 := by
  intro hcontra
  have h := congrArg (fun r => r.metadata.analysis_timestamp) hcontra
  norm_num [run_complete_analysis] at h

/-- C3 (amended): every component of the output except
`analysis_metadata.analysis_timestamp` is a deterministic pure function of
the input frame and the configuration — two runs at arbitrary clock
instants agree on all of them. -/
theorem c3_determinism_amended (p : ℕ) (th : ℚ) (df : List Bar) (hma : List (Option ℚ))
    (wb wa : ℕ) (t1 t2 : ℤ) :
    (run_complete_analysis p th df hma wb wa t1).base
        = (run_complete_analysis p th df hma wb wa t2).base ∧
      (run_complete_analysis p th df hma wb wa t1).uptrend_analysis
        = (run_complete_analysis p th df hma wb wa t2).uptrend_analysis ∧
      (run_complete_analysis p th df hma wb wa t1).downtrend_analysis
        = (run_complete_analysis p th df hma wb wa t2).downtrend_analysis ∧
      (run_complete_analysis p th df hma wb wa t1).metadata.hma_period
        = (run_complete_analysis p th df hma wb wa t2).metadata.hma_period ∧
      (run_complete_analysis p th df hma wb wa t1).metadata.slope_threshold
        = (run_complete_analysis p th df hma wb wa t2).metadata.slope_threshold ∧
      (run_complete_analysis p th df hma wb wa t1).metadata.total_data_points
        = (run_complete_analysis p th df hma wb wa t2).metadata.total_data_points :=
  ⟨rfl, rfl, rfl, rfl, rfl, rfl⟩

/-- C10: with an empty interval list, `generate_trend_report` returns only
the error marker — a constructor carrying nothing but the message, with no
summary, interval-analysis or event-analysis groups — for every events
list. -/
theorem c10_empty_report (events : List EventAnalysis) :
    generate_trend_report [] events = ReportResult.error "没有可分析的区间数据" := rfl
